import Mathlib

/-
Verification of the help-rota coordination board server.

The server keeps four in-memory collections (tasks, visits, helpers, config)
and mutates them through Express route handlers.  We embed each handler as a
pure function from an application state (plus the request inputs and the
current wall-clock time, passed explicitly) to a response together with the
successor state.  Optional JSON body fields are `Option String`; `null` and
an absent field are both `none`.  Fresh uuid generation is modelled by a
counter `nextId` carried in the state: each generated identifier is the
current counter value, distinct from every identifier generated before.
-/

namespace HelpRota

/-- Error responses the route handlers can produce, by HTTP status:
notFound = 404, conflict = 409, invalidInput = 400, forbidden = 403. -/
inductive ApiError where
  | notFound
  | conflict
  | invalidInput
  | forbidden
deriving DecidableEq, Repr

/-- JavaScript `x || d` for an optional string field: an absent field and the
empty string are both falsy and yield the default. -/
def jsOr (x : Option String) (d : String) : String :=
  match x with
  | none => d
  | some s => if s = "" then d else s

/-- JavaScript `String.prototype.trim`: strip whitespace from both ends.
Defined by structural recursion over the character list so that it evaluates
inside the kernel. -/
def jsTrim (s : String) : String :=
  String.mk (((s.toList.dropWhile Char.isWhitespace).reverse.dropWhile
    Char.isWhitespace).reverse)

/-- JavaScript truthiness of an optional string value (`if (visit.bookedBy)`):
absent and empty string are falsy. -/
def truthy (x : Option String) : Bool :=
  match x with
  | none => false
  | some s => s != ""

/-- A task record, as built by `POST /api/tasks` and mutated by the task
routes.  `title` is stored exactly as received (possibly absent). -/
structure Task where
  id : Nat
  title : Option String
  description : String
  category : String
  desiredDate : String
  desiredTime : String
  twin : String
  status : String
  createdAt : String
  claimedBy : Option String
  claimedAt : Option String
  completedAt : Option String
deriving DecidableEq, Repr

/-- Request body of `POST /api/tasks`; every field may be absent. -/
structure TaskBody where
  title : Option String := none
  description : Option String := none
  category : Option String := none
  desiredDate : Option String := none
  desiredTime : Option String := none
  twin : Option String := none
deriving DecidableEq, Repr

/-- Request body of `PUT /api/tasks/:id`: `Object.assign(tasks[idx], req.body)`
overwrites exactly the fields present in the body.  An outer `none` means the
field is absent from the body and left untouched. -/
structure TaskPatch where
  id : Option Nat := none
  title : Option (Option String) := none
  description : Option String := none
  category : Option String := none
  desiredDate : Option String := none
  desiredTime : Option String := none
  twin : Option String := none
  status : Option String := none
  createdAt : Option String := none
  claimedBy : Option (Option String) := none
  claimedAt : Option (Option String) := none
  completedAt : Option (Option String) := none
deriving DecidableEq, Repr

/-- `Object.assign` of a patch body onto a task record. -/
def applyPatch (t : Task) (p : TaskPatch) : Task :=
  { id := p.id.getD t.id
    title := p.title.getD t.title
    description := p.description.getD t.description
    category := p.category.getD t.category
    desiredDate := p.desiredDate.getD t.desiredDate
    desiredTime := p.desiredTime.getD t.desiredTime
    twin := p.twin.getD t.twin
    status := p.status.getD t.status
    createdAt := p.createdAt.getD t.createdAt
    claimedBy := p.claimedBy.getD t.claimedBy
    claimedAt := p.claimedAt.getD t.claimedAt
    completedAt := p.completedAt.getD t.completedAt }

/-- A visit (bookable time slot) record. -/
structure Visit where
  id : Nat
  date : Option String
  startTime : Option String
  endTime : Option String
  bookedBy : Option String
  bookedAt : Option String
  createdAt : String
deriving DecidableEq, Repr

/-- Request body of `POST /api/visits`. -/
structure VisitBody where
  date : Option String := none
  startTime : Option String := none
  endTime : Option String := none
deriving DecidableEq, Repr

/-- A helper (volunteer) record. -/
structure Helper where
  id : Nat
  name : String
  joinedAt : String
deriving DecidableEq, Repr

/-- The config document, holding the shared PIN. -/
structure Config where
  pin : String
deriving DecidableEq, Repr

/-- The whole in-memory server state: the four collections plus the fresh-id
counter modelling uuid generation. -/
structure AppState where
  tasks : List Task
  visits : List Visit
  helpers : List Helper
  config : Config
  nextId : Nat
deriving DecidableEq, Repr

/-- The state on first run: every collection empty, PIN defaulted to 0000. -/
def initialState : AppState :=
  { tasks := [], visits := [], helpers := [], config := { pin := "0000" }, nextId := 0 }

/-- Replace the first element satisfying `p` by its image under `f`
(the in-place mutation of the record returned by `Array.prototype.find`). -/
def updateFirst (p : α → Bool) (f : α → α) : List α → List α
  | [] => []
  | x :: xs => if p x then f x :: xs else x :: updateFirst p f xs

/-- The task record built by `POST /api/tasks` from the request body. -/
def mkTask (id : Nat) (b : TaskBody) (now : String) : Task :=
  { id := id
    title := b.title
    description := jsOr b.description ""
    category := jsOr b.category "📦 기타"
    desiredDate := jsOr b.desiredDate ""
    desiredTime := jsOr b.desiredTime ""
    twin := jsOr b.twin ""
    status := "waiting"
    createdAt := now
    claimedBy := none
    claimedAt := none
    completedAt := none }

/-- `POST /api/tasks`: build the record, prepend it (`unshift`), respond. -/
def apiCreateTask (s : AppState) (b : TaskBody) (now : String) :
    Except ApiError Task × AppState :=
  let task := mkTask s.nextId b now
  (.ok task, { s with tasks := task :: s.tasks, nextId := s.nextId + 1 })

/-- `PUT /api/tasks/:id`: 404 when the id is absent, otherwise
`Object.assign` the body onto the record. -/
def apiUpdateTask (s : AppState) (id : Nat) (p : TaskPatch) :
    Except ApiError Task × AppState :=
  match s.tasks.find? (fun t => t.id == id) with
  | none => (.error .notFound, s)
  | some t =>
      (.ok (applyPatch t p),
       { s with tasks := updateFirst (fun u => u.id == id) (fun u => applyPatch u p) s.tasks })

/-- `DELETE /api/tasks/:id`: filter the id out; always `{ok:true}`. -/
def apiDeleteTask (s : AppState) (id : Nat) : Except ApiError Unit × AppState :=
  (.ok (), { s with tasks := s.tasks.filter (fun t => t.id != id) })

/-- Field mutation of `POST /api/tasks/:id/claim`. -/
def claimSet (helperName : Option String) (now : String) (t : Task) : Task :=
  { t with status := "reserved", claimedBy := helperName, claimedAt := some now }

/-- Field mutation of `POST /api/tasks/:id/unclaim`. -/
def unclaimSet (t : Task) : Task :=
  { t with status := "waiting", claimedBy := none, claimedAt := none }

/-- Field mutation of `POST /api/tasks/:id/complete`. -/
def completeSet (now : String) (t : Task) : Task :=
  { t with status := "done", completedAt := some now }

/-- `POST /api/tasks/:id/claim`. -/
def apiClaimTask (s : AppState) (id : Nat) (helperName : Option String) (now : String) :
    Except ApiError Task × AppState :=
  match s.tasks.find? (fun t => t.id == id) with
  | none => (.error .notFound, s)
  | some t =>
      (.ok (claimSet helperName now t),
       { s with tasks := updateFirst (fun u => u.id == id) (claimSet helperName now) s.tasks })

/-- `POST /api/tasks/:id/unclaim`. -/
def apiUnclaimTask (s : AppState) (id : Nat) : Except ApiError Task × AppState :=
  match s.tasks.find? (fun t => t.id == id) with
  | none => (.error .notFound, s)
  | some t =>
      (.ok (unclaimSet t),
       { s with tasks := updateFirst (fun u => u.id == id) unclaimSet s.tasks })

/-- `POST /api/tasks/:id/complete`. -/
def apiCompleteTask (s : AppState) (id : Nat) (now : String) :
    Except ApiError Task × AppState :=
  match s.tasks.find? (fun t => t.id == id) with
  | none => (.error .notFound, s)
  | some t =>
      (.ok (completeSet now t),
       { s with tasks := updateFirst (fun u => u.id == id) (completeSet now) s.tasks })

/-- The visit record built by `POST /api/visits` from the request body. -/
def mkVisit (id : Nat) (b : VisitBody) (now : String) : Visit :=
  { id := id
    date := b.date
    startTime := b.startTime
    endTime := b.endTime
    bookedBy := none
    bookedAt := none
    createdAt := now }

/-- `POST /api/visits`: build the record, append it (`push`), respond. -/
def apiCreateVisit (s : AppState) (b : VisitBody) (now : String) :
    Except ApiError Visit × AppState :=
  let visit := mkVisit s.nextId b now
  (.ok visit, { s with visits := s.visits ++ [visit], nextId := s.nextId + 1 })

/-- Field mutation of `POST /api/visits/:id/book`. -/
def bookSet (helperName : Option String) (now : String) (v : Visit) : Visit :=
  { v with bookedBy := helperName, bookedAt := some now }

/-- `POST /api/visits/:id/book`: 404 when absent, 409 when `visit.bookedBy`
is truthy, otherwise set both booking fields. -/
def apiBookVisit (s : AppState) (id : Nat) (helperName : Option String) (now : String) :
    Except ApiError Visit × AppState :=
  match s.visits.find? (fun v => v.id == id) with
  | none => (.error .notFound, s)
  | some v =>
      if truthy v.bookedBy then (.error .conflict, s)
      else
        (.ok (bookSet helperName now v),
         { s with visits := updateFirst (fun u => u.id == id) (bookSet helperName now) s.visits })

/-- Field mutation of `POST /api/visits/:id/unbook`. -/
def unbookSet (v : Visit) : Visit :=
  { v with bookedBy := none, bookedAt := none }

/-- `POST /api/visits/:id/unbook`: clears the booking unconditionally. -/
def apiUnbookVisit (s : AppState) (id : Nat) : Except ApiError Visit × AppState :=
  match s.visits.find? (fun v => v.id == id) with
  | none => (.error .notFound, s)
  | some v =>
      (.ok (unbookSet v),
       { s with visits := updateFirst (fun u => u.id == id) unbookSet s.visits })

/-- `DELETE /api/visits/:id`. -/
def apiDeleteVisit (s : AppState) (id : Nat) : Except ApiError Unit × AppState :=
  (.ok (), { s with visits := s.visits.filter (fun v => v.id != id) })

instance {ε α : Type} [DecidableEq ε] [DecidableEq α] : DecidableEq (Except ε α) := fun a b =>
  match a, b with
  | .error e, .error f =>
      if h : e = f then isTrue (congrArg Except.error h)
      else isFalse (fun hc => h (Except.error.inj hc))
  | .error _, .ok _ => isFalse Except.noConfusion
  | .ok _, .error _ => isFalse Except.noConfusion
  | .ok x, .ok y =>
      if h : x = y then isTrue (congrArg Except.ok h)
      else isFalse (fun hc => h (Except.ok.inj hc))

/-- Result of `POST /api/helpers`, recording whether the request persisted
(`saveHelpers`) and broadcast (`io.emit`) in the branch taken. -/
structure RegisterOutcome where
  result : Except ApiError Helper
  state : AppState
  persisted : Bool
  broadcast : Bool
deriving DecidableEq, Repr

/-- `POST /api/helpers`: 400 when the name is absent or blank after trimming;
an existing helper with the same trimmed name is returned as-is with no save
and no emit; otherwise a fresh record is appended, saved and broadcast. -/
def apiRegisterHelper (s : AppState) (name : Option String) (now : String) : RegisterOutcome :=
  match name with
  | none => ⟨.error .invalidInput, s, false, false⟩
  | some n =>
      if jsTrim n = "" then ⟨.error .invalidInput, s, false, false⟩
      else
        match s.helpers.find? (fun h => h.name == jsTrim n) with
        | some existing => ⟨.ok existing, s, false, false⟩
        | none =>
            let helper : Helper := { id := s.nextId, name := jsTrim n, joinedAt := now }
            ⟨.ok helper,
             { s with helpers := s.helpers ++ [helper], nextId := s.nextId + 1 },
             true, true⟩

/-- `POST /api/verify-pin`: pure equality check, `{ ok: pin === config.pin }`. -/
def apiVerifyPin (s : AppState) (pin : String) : Bool :=
  pin == s.config.pin

/-- `POST /api/set-pin`: 403 when `oldPin !== config.pin`, otherwise
overwrite the PIN. -/
def apiSetPin (s : AppState) (oldPin newPin : String) : Except ApiError Unit × AppState :=
  if oldPin != s.config.pin then (.error .forbidden, s)
  else (.ok (), { s with config := { pin := newPin } })

/-- The task-mutating operations of the API, with their request inputs and
the wall-clock time at which they run. -/
inductive TaskOp where
  | create (body : TaskBody) (now : String)
  | update (id : Nat) (p : TaskPatch)
  | delete (id : Nat)
  | claim (id : Nat) (helperName : Option String) (now : String)
  | unclaim (id : Nat)
  | complete (id : Nat) (now : String)
deriving DecidableEq, Repr

/-- State transition of one task operation (error responses leave the state
unchanged, as in the handlers). -/
def stepTaskOp (s : AppState) (op : TaskOp) : AppState :=
  match op with
  | .create b now => (apiCreateTask s b now).2
  | .update id p => (apiUpdateTask s id p).2
  | .delete id => (apiDeleteTask s id).2
  | .claim id h now => (apiClaimTask s id h now).2
  | .unclaim id => (apiUnclaimTask s id).2
  | .complete id now => (apiCompleteTask s id now).2

/-- Run a sequence of task operations from the empty initial state. -/
def runTaskOps (ops : List TaskOp) : AppState :=
  List.foldl stepTaskOp initialState ops

/-- The visit-mutating operations of the API. -/
inductive VisitOp where
  | create (body : VisitBody) (now : String)
  | book (id : Nat) (helperName : Option String) (now : String)
  | unbook (id : Nat)
  | delete (id : Nat)
deriving DecidableEq, Repr

/-- State transition of one visit operation. -/
def stepVisitOp (s : AppState) (op : VisitOp) : AppState :=
  match op with
  | .create b now => (apiCreateVisit s b now).2
  | .book id h now => (apiBookVisit s id h now).2
  | .unbook id => (apiUnbookVisit s id).2
  | .delete id => (apiDeleteVisit s id).2

/-- Run a sequence of visit operations from the empty initial state. -/
def runVisitOps (ops : List VisitOp) : AppState :=
  List.foldl stepVisitOp initialState ops

/-- The status invariant exactly as the specification states it. -/
def taskStatusInv (t : Task) : Prop :=
  (t.status = "waiting" → t.claimedBy = none ∧ t.claimedAt = none) ∧
  (t.status = "reserved" → t.claimedBy.isSome = true ∧ t.claimedAt.isSome = true ∧
    t.completedAt = none) ∧
  (t.status = "done" → t.completedAt.isSome = true)

/-- The status invariant the code actually maintains: the clause
`status=reserved implies completedAt absent` is dropped (re-claiming a done
task keeps its completedAt). -/
def taskStatusInvA (t : Task) : Prop :=
  (t.status = "waiting" → t.claimedBy = none ∧ t.claimedAt = none) ∧
  (t.status = "reserved" → t.claimedBy.isSome = true ∧ t.claimedAt.isSome = true) ∧
  (t.status = "done" → t.completedAt.isSome = true)

/-- The booking co-presence invariant of a visit. -/
def visitBookInv (v : Visit) : Prop :=
  v.bookedBy.isSome = true ↔ v.bookedAt.isSome = true

instance (t : Task) : Decidable (taskStatusInv t) := by
  unfold taskStatusInv; infer_instance

instance (t : Task) : Decidable (taskStatusInvA t) := by
  unfold taskStatusInvA; infer_instance

instance (v : Visit) : Decidable (visitBookInv v) := by
  unfold visitBookInv; infer_instance

/-- Task operations under which the status invariant is maintained: no raw
update, and every claim carries a helper name. -/
def taskOpSafe : TaskOp → Bool
  | .update _ _ => false
  | .claim _ helperName _ => helperName.isSome
  | _ => true

/-- Task operations that never write the id field: everything except an
update whose body contains `id`. -/
def taskOpKeepsId : TaskOp → Bool
  | .update _ p => p.id.isNone
  | _ => true

/-- Visit operations under which the booking invariant is maintained: every
book carries a helper name. -/
def visitOpSafe : VisitOp → Bool
  | .book _ helperName _ => helperName.isSome
  | _ => true

/-- Auxiliary invariant for identifier uniqueness: every stored task id is
below the fresh-id counter, and the stored ids are pairwise distinct. -/
def taskIdInv (s : AppState) : Prop :=
  (∀ t ∈ s.tasks, t.id < s.nextId) ∧ (s.tasks.map Task.id).Pairwise (fun a b => a ≠ b)

/-- An empty create-task body (every field absent). -/
def tb0 : TaskBody := {}

/-- A concrete create-visit body. -/
def vb0 : VisitBody :=
  { date := some "2024-06-01", startTime := some "10:00", endTime := some "11:00" }

/-- Create a task, complete it, then re-claim it: ends reserved with
completedAt still set. -/
def c1ex1 : List TaskOp :=
  [.create tb0 "t0", .complete 0 "t1", .claim 0 (some "Sam") "t2"]

/-- Create a task, then claim it with a body that has no helperName: ends
reserved with claimedBy absent. -/
def c1ex2 : List TaskOp :=
  [.create tb0 "t0", .claim 0 none "t1"]

/-- Create a task, then raw-update its status to done: ends done with
completedAt absent. -/
def c1ex3 : List TaskOp :=
  [.create tb0 "t0", .update 0 { status := some "done" }]

/-- Create two tasks, then raw-update the second task's id to collide with
the first. -/
def c8ex : List TaskOp :=
  [.create tb0 "t0", .create tb0 "t1", .update 1 { id := some 0 }]

/-- Create a visit, then book it with a body that has no helperName: ends
with bookedAt set but bookedBy absent. -/
def c2ex : List VisitOp :=
  [.create vb0 "t0", .book 0 none "t1"]

/-- Create a visit and book it with the empty-string helper name: bookedBy
is set (present) but falsy. -/
def c3ex : List VisitOp :=
  [.create vb0 "t0", .book 0 (some "") "t1"]

/-- A safe two-operation task history used to instantiate the invariant
theorems. -/
def c1wOps : List TaskOp :=
  [.create tb0 "a", .claim 0 (some "Sam") "b"]

/-- The single task produced by `c1wOps`. -/
def c1wTask : Task :=
  claimSet (some "Sam") "b" (mkTask 0 tb0 "a")

/-- A two-create history used to instantiate the id-uniqueness theorem. -/
def c8wOps : List TaskOp :=
  [.create tb0 "a", .create tb0 "b"]

/-- A safe two-operation visit history used to instantiate the invariant
theorems. -/
def c2wOps : List VisitOp :=
  [.create vb0 "a", .book 0 (some "Kim") "b"]

/-- The single visit produced by `c2wOps`. -/
def c2wVisit : Visit :=
  bookSet (some "Kim") "b" (mkVisit 0 vb0 "a")

/-- A state holding exactly one freshly created task (id 0). -/
def oneTaskState : AppState := (apiCreateTask initialState tb0 "t0").2

/-- The task stored in `oneTaskState`. -/
def task0 : Task := mkTask 0 tb0 "t0"

/-- A state holding one visit already booked by Kim. -/
def bookedState : AppState :=
  runVisitOps [.create vb0 "t0", .book 0 (some "Kim") "t1"]

/-- The booked visit stored in `bookedState`. -/
def bookedVisit : Visit := bookSet (some "Kim") "t1" (mkVisit 0 vb0 "t0")

/-- An element of the mutated list is an old element or the image of one. -/
theorem mem_updateFirst {α : Type} {p : α → Bool} {f : α → α} {y : α} {l : List α}
    (h : y ∈ updateFirst p f l) : y ∈ l ∨ ∃ x, x ∈ l ∧ y = f x := by
  induction l with
  | nil => simp [updateFirst] at h
  | cons x xs ih =>
    by_cases hp : p x = true
    · simp only [updateFirst, if_pos hp, List.mem_cons] at h
      rcases h with h | h
      · exact Or.inr ⟨x, List.mem_cons_self x xs, h⟩
      · exact Or.inl (List.mem_cons_of_mem x h)
    · simp only [updateFirst, if_neg hp, List.mem_cons] at h
      rcases h with h | h
      · exact Or.inl (by simp [h])
      · rcases ih h with h1 | ⟨z, hz, hy⟩
        · exact Or.inl (List.mem_cons_of_mem x h1)
        · exact Or.inr ⟨z, List.mem_cons_of_mem x hz, hy⟩

/-- Mutating the first match does not change the length. -/
theorem length_updateFirst {α : Type} (p : α → Bool) (f : α → α) (l : List α) :
    (updateFirst p f l).length = l.length := by
  induction l with
  | nil => rfl
  | cons x xs ih =>
    by_cases hp : p x = true
    · simp [updateFirst, hp]
    · simp [updateFirst, hp, ih]

/-- When `f` preserves a projection `g`, mutating the first match preserves
the list of projections. -/
theorem map_updateFirst {α β : Type} {p : α → Bool} {f : α → α} {g : α → β}
    (hf : ∀ x, g (f x) = g x) (l : List α) :
    (updateFirst p f l).map g = l.map g := by
  induction l with
  | nil => rfl
  | cons x xs ih =>
    by_cases hp : p x = true
    · simp [updateFirst, hp, hf]
    · simp [updateFirst, hp, ih]

/-- Every position is unchanged unless it is the first match. -/
theorem forall₂_updateFirst {α : Type} (p : α → Bool) (f : α → α) (l : List α) :
    List.Forall₂ (fun a b => p a = false → b = a) l (updateFirst p f l) := by
  induction l with
  | nil => exact List.Forall₂.nil
  | cons x xs ih =>
    by_cases hp : p x = true
    · simp only [updateFirst, if_pos hp]
      exact List.Forall₂.cons (fun hfalse => absurd hp (by simp [hfalse]))
        (List.forall₂_same.mpr (fun a _ _ => rfl))
    · simp only [updateFirst, if_neg hp]
      exact List.Forall₂.cons (fun _ => rfl) ih

/-- When the mutation keeps the found element matching, searching the mutated
list finds the mutated element. -/
theorem find?_updateFirst {α : Type} {p : α → Bool} {f : α → α} {a : α}
    (hf : ∀ x, p x = true → p (f x) = true) {l : List α} (h : l.find? p = some a) :
    (updateFirst p f l).find? p = some (f a) := by
  induction l with
  | nil => simp at h
  | cons x xs ih =>
    by_cases hp : p x = true
    · rw [List.find?_cons_of_pos xs hp] at h
      have hax : a = x := by
        have := Option.some.inj h
        exact this.symm
      subst hax
      simp only [updateFirst, if_pos hp]
      exact List.find?_cons_of_pos xs (hf a hp)
    · rw [List.find?_cons_of_neg xs (by simpa using hp)] at h
      simp only [updateFirst, if_neg hp]
      rw [List.find?_cons_of_neg _ (by simpa using hp)]
      exact ih h

/-- Searching past a prefix with no match. -/
theorem find?_append_of_none {α : Type} {p : α → Bool} {l₁ : List α}
    (h : l₁.find? p = none) (l₂ : List α) : (l₁ ++ l₂).find? p = l₂.find? p := by
  induction l₁ with
  | nil => rfl
  | cons x xs ih =>
    by_cases hp : p x = true
    · rw [List.find?_cons_of_pos xs hp] at h
      cases h
    · rw [List.find?_cons_of_neg xs (by simpa using hp)] at h
      rw [List.cons_append, List.find?_cons_of_neg _ (by simpa using hp)]
      exact ih h

/-- One safe task operation preserves the maintained status invariant. -/
theorem stepTaskOp_statusInv (s : AppState) (op : TaskOp) (hop : taskOpSafe op = true)
    (hs : ∀ t ∈ s.tasks, taskStatusInvA t) :
    ∀ t ∈ (stepTaskOp s op).tasks, taskStatusInvA t := by
  cases op with
  | create b now =>
    intro t ht
    simp only [stepTaskOp, apiCreateTask] at ht
    rcases List.mem_cons.mp ht with h | h
    · subst h
      exact ⟨fun _ => ⟨rfl, rfl⟩, fun h2 => by simp [mkTask] at h2,
        fun h3 => by simp [mkTask] at h3⟩
    · exact hs t h
  | update id p => simp [taskOpSafe] at hop
  | delete id =>
    intro t ht
    simp only [stepTaskOp, apiDeleteTask] at ht
    exact hs t (List.mem_filter.mp ht).1
  | claim id h now =>
    have hsome : h.isSome = true := by simpa [taskOpSafe] using hop
    intro t ht
    cases hfind : s.tasks.find? (fun u => u.id == id) with
    | none =>
      simp only [stepTaskOp, apiClaimTask, hfind] at ht
      exact hs t ht
    | some t0 =>
      simp only [stepTaskOp, apiClaimTask, hfind] at ht
      rcases mem_updateFirst ht with h1 | ⟨x, _, hy⟩
      · exact hs t h1
      · subst hy
        exact ⟨fun h2 => by simp [claimSet] at h2,
          fun _ => ⟨by simpa [claimSet] using hsome, rfl⟩,
          fun h3 => by simp [claimSet] at h3⟩
  | unclaim id =>
    intro t ht
    cases hfind : s.tasks.find? (fun u => u.id == id) with
    | none =>
      simp only [stepTaskOp, apiUnclaimTask, hfind] at ht
      exact hs t ht
    | some t0 =>
      simp only [stepTaskOp, apiUnclaimTask, hfind] at ht
      rcases mem_updateFirst ht with h1 | ⟨x, _, hy⟩
      · exact hs t h1
      · subst hy
        exact ⟨fun _ => ⟨rfl, rfl⟩, fun h2 => by simp [unclaimSet] at h2,
          fun h3 => by simp [unclaimSet] at h3⟩
  | complete id now =>
    intro t ht
    cases hfind : s.tasks.find? (fun u => u.id == id) with
    | none =>
      simp only [stepTaskOp, apiCompleteTask, hfind] at ht
      exact hs t ht
    | some t0 =>
      simp only [stepTaskOp, apiCompleteTask, hfind] at ht
      rcases mem_updateFirst ht with h1 | ⟨x, _, hy⟩
      · exact hs t h1
      · subst hy
        exact ⟨fun h1 => by simp [completeSet] at h1,
          fun h2 => by simp [completeSet] at h2, fun _ => rfl⟩

/-- Folding safe task operations preserves the maintained status invariant. -/
theorem foldl_statusInv (ops : List TaskOp) :
    ∀ s : AppState, (∀ op ∈ ops, taskOpSafe op = true) →
      (∀ t ∈ s.tasks, taskStatusInvA t) →
      ∀ t ∈ (List.foldl stepTaskOp s ops).tasks, taskStatusInvA t := by
  induction ops with
  | nil => intro s _ hs; simpa using hs
  | cons op ops ih =>
    intro s hops hs
    simp only [List.foldl_cons]
    exact ih _ (fun o ho => hops o (List.mem_cons_of_mem _ ho))
      (stepTaskOp_statusInv s op (hops op (List.mem_cons_self _ _)) hs)

/-- One safe visit operation preserves the booking co-presence invariant. -/
theorem stepVisitOp_bookInv (s : AppState) (op : VisitOp) (hop : visitOpSafe op = true)
    (hs : ∀ v ∈ s.visits, visitBookInv v) :
    ∀ v ∈ (stepVisitOp s op).visits, visitBookInv v := by
  cases op with
  | create b now =>
    intro v hv
    simp only [stepVisitOp, apiCreateVisit] at hv
    rcases List.mem_append.mp hv with h | h
    · exact hs v h
    · have : v = mkVisit s.nextId b now := by simpa using h
      subst this
      exact Iff.rfl
  | book id h now =>
    have hsome : h.isSome = true := by simpa [visitOpSafe] using hop
    intro v hv
    cases hfind : s.visits.find? (fun u => u.id == id) with
    | none =>
      simp only [stepVisitOp, apiBookVisit, hfind] at hv
      exact hs v hv
    | some v0 =>
      by_cases hb : truthy v0.bookedBy = true
      · simp only [stepVisitOp, apiBookVisit, hfind, hb, if_true] at hv
        exact hs v hv
      · simp only [stepVisitOp, apiBookVisit, hfind, hb, if_false] at hv
        rcases mem_updateFirst hv with h1 | ⟨x, _, hy⟩
        · exact hs v h1
        · subst hy
          constructor
          · intro _; rfl
          · intro _; simpa [bookSet] using hsome
  | unbook id =>
    intro v hv
    cases hfind : s.visits.find? (fun u => u.id == id) with
    | none =>
      simp only [stepVisitOp, apiUnbookVisit, hfind] at hv
      exact hs v hv
    | some v0 =>
      simp only [stepVisitOp, apiUnbookVisit, hfind] at hv
      rcases mem_updateFirst hv with h1 | ⟨x, _, hy⟩
      · exact hs v h1
      · subst hy
        exact Iff.rfl
  | delete id =>
    intro v hv
    simp only [stepVisitOp, apiDeleteVisit] at hv
    exact hs v (List.mem_filter.mp hv).1

/-- Folding safe visit operations preserves the booking invariant. -/
theorem foldl_bookInv (ops : List VisitOp) :
    ∀ s : AppState, (∀ op ∈ ops, visitOpSafe op = true) →
      (∀ v ∈ s.visits, visitBookInv v) →
      ∀ v ∈ (List.foldl stepVisitOp s ops).visits, visitBookInv v := by
  induction ops with
  | nil => intro s _ hs; simpa using hs
  | cons op ops ih =>
    intro s hops hs
    simp only [List.foldl_cons]
    exact ih _ (fun o ho => hops o (List.mem_cons_of_mem _ ho))
      (stepVisitOp_bookInv s op (hops op (List.mem_cons_self _ _)) hs)

/-- A task operation whose body does not write `id` preserves the identifier
invariant. -/
theorem stepTaskOp_idInv (s : AppState) (op : TaskOp) (hop : taskOpKeepsId op = true)
    (hs : taskIdInv s) : taskIdInv (stepTaskOp s op) := by
  obtain ⟨hbound, hpair⟩ := hs
  cases op with
  | create b now =>
    constructor
    · intro t ht
      simp only [stepTaskOp, apiCreateTask] at ht ⊢
      rcases List.mem_cons.mp ht with h | h
      · subst h; exact Nat.lt_succ_self _
      · exact Nat.lt_succ_of_lt (hbound t h)
    · simp only [stepTaskOp, apiCreateTask, List.map_cons]
      refine List.Pairwise.cons ?_ hpair
      intro b hb
      simp only [List.mem_map] at hb
      obtain ⟨t, ht, rfl⟩ := hb
      exact Nat.ne_of_gt (hbound t ht)
  | update id p =>
    have hid : p.id = none := by
      simpa [taskOpKeepsId, Option.isNone_iff_eq_none] using hop
    cases hfind : s.tasks.find? (fun u => u.id == id) with
    | none => exact ⟨by simpa [stepTaskOp, apiUpdateTask, hfind] using hbound,
        by simpa [stepTaskOp, apiUpdateTask, hfind] using hpair⟩
    | some t0 =>
      have hmap : ((stepTaskOp s (.update id p)).tasks.map Task.id) = s.tasks.map Task.id := by
        simp only [stepTaskOp, apiUpdateTask, hfind]
        exact map_updateFirst (fun x => by simp [applyPatch, hid]) s.tasks
      constructor
      · intro t ht
        simp only [stepTaskOp, apiUpdateTask, hfind] at ht ⊢
        rcases mem_updateFirst ht with h1 | ⟨x, hx, hy⟩
        · exact hbound t h1
        · subst hy
          have : (applyPatch x p).id = x.id := by simp [applyPatch, hid]
          rw [this]
          exact hbound x hx
      · rw [hmap]; exact hpair
  | delete id =>
    constructor
    · intro t ht
      simp only [stepTaskOp, apiDeleteTask] at ht ⊢
      exact hbound t (List.mem_filter.mp ht).1
    · simp only [stepTaskOp, apiDeleteTask]
      exact (List.pairwise_map.mpr ((List.pairwise_map.mp hpair).sublist
        (List.filter_sublist s.tasks)))
  | claim id h now =>
    cases hfind : s.tasks.find? (fun u => u.id == id) with
    | none => exact ⟨by simpa [stepTaskOp, apiClaimTask, hfind] using hbound,
        by simpa [stepTaskOp, apiClaimTask, hfind] using hpair⟩
    | some t0 =>
      constructor
      · intro t ht
        simp only [stepTaskOp, apiClaimTask, hfind] at ht ⊢
        rcases mem_updateFirst ht with h1 | ⟨x, hx, hy⟩
        · exact hbound t h1
        · subst hy; exact hbound x hx
      · simp only [stepTaskOp, apiClaimTask, hfind]
        rw [@map_updateFirst _ _ (fun u => u.id == id) (claimSet h now) Task.id
          (fun x => rfl) s.tasks]
        exact hpair
  | unclaim id =>
    cases hfind : s.tasks.find? (fun u => u.id == id) with
    | none => exact ⟨by simpa [stepTaskOp, apiUnclaimTask, hfind] using hbound,
        by simpa [stepTaskOp, apiUnclaimTask, hfind] using hpair⟩
    | some t0 =>
      constructor
      · intro t ht
        simp only [stepTaskOp, apiUnclaimTask, hfind] at ht ⊢
        rcases mem_updateFirst ht with h1 | ⟨x, hx, hy⟩
        · exact hbound t h1
        · subst hy; exact hbound x hx
      · simp only [stepTaskOp, apiUnclaimTask, hfind]
        rw [@map_updateFirst _ _ (fun u => u.id == id) unclaimSet Task.id
          (fun x => rfl) s.tasks]
        exact hpair
  | complete id now =>
    cases hfind : s.tasks.find? (fun u => u.id == id) with
    | none => exact ⟨by simpa [stepTaskOp, apiCompleteTask, hfind] using hbound,
        by simpa [stepTaskOp, apiCompleteTask, hfind] using hpair⟩
    | some t0 =>
      constructor
      · intro t ht
        simp only [stepTaskOp, apiCompleteTask, hfind] at ht ⊢
        rcases mem_updateFirst ht with h1 | ⟨x, hx, hy⟩
        · exact hbound t h1
        · subst hy; exact hbound x hx
      · simp only [stepTaskOp, apiCompleteTask, hfind]
        rw [@map_updateFirst _ _ (fun u => u.id == id) (completeSet now) Task.id
          (fun x => rfl) s.tasks]
        exact hpair

/-- Folding id-preserving task operations preserves the identifier
invariant. -/
theorem foldl_idInv (ops : List TaskOp) :
    ∀ s : AppState, (∀ op ∈ ops, taskOpKeepsId op = true) → taskIdInv s →
      taskIdInv (List.foldl stepTaskOp s ops) := by
  induction ops with
  | nil => intro s _ hs; simpa using hs
  | cons op ops ih =>
    intro s hops hs
    simp only [List.foldl_cons]
    exact ih _ (fun o ho => hops o (List.mem_cons_of_mem _ ho))
      (stepTaskOp_idInv s op (hops op (List.mem_cons_self _ _)) hs)

/-- C1 (counterexample): the status invariant as the spec states it fails on
the stored collection after three concrete histories. Completing a task and
then re-claiming it ends reserved with completedAt still present; claiming
with a body lacking helperName ends reserved with claimedBy absent; a raw
update of status to done ends done with completedAt absent. -/
theorem c1_status_invariant_counterexample :
    (¬ ∀ t ∈ (runTaskOps c1ex1).tasks, taskStatusInv t) ∧
    (¬ ∀ t ∈ (runTaskOps c1ex2).tasks, taskStatusInv t) ∧
    (¬ ∀ t ∈ (runTaskOps c1ex3).tasks, taskStatusInv t) := by
  decide

/-- C1 (amended): after any sequence of create, claim, unclaim, complete and
delete operations from the empty collection, in which every claim carries a
helper name (the raw update escape hatch excluded), every stored task
satisfies: waiting implies the claim fields are absent, reserved implies the
claim fields are present, done implies completedAt is present (completedAt
may also survive on a re-claimed reserved task). -/
theorem c1_status_invariant_amended (ops : List TaskOp)
    (hops : ∀ op ∈ ops, taskOpSafe op = true) :
    ∀ t ∈ (runTaskOps ops).tasks, taskStatusInvA t :=
  foldl_statusInv ops initialState hops (by simp [initialState])

/-- C1 (witness): the amended invariant instantiated on a concrete
create-then-claim history and its single stored task. -/
theorem c1_status_invariant_witness : taskStatusInvA c1wTask :=
  c1_status_invariant_amended c1wOps (by decide) c1wTask (by decide)

/-- C2 (counterexample): booking a visit with a request body that carries no
helperName sets bookedAt but leaves bookedBy absent, breaking the claimed
co-presence invariant. -/
theorem c2_booking_invariant_counterexample :
    ¬ ∀ v ∈ (runVisitOps c2ex).visits, visitBookInv v := by
  decide

/-- C2 (amended): after any sequence of create, book, unbook and delete
operations from the empty collection in which every book request carries a
helperName, every stored visit has bookedBy present iff bookedAt present. -/
theorem c2_booking_invariant_amended (ops : List VisitOp)
    (hops : ∀ op ∈ ops, visitOpSafe op = true) :
    ∀ v ∈ (runVisitOps ops).visits, visitBookInv v :=
  foldl_bookInv ops initialState hops (by simp [initialState])

/-- C2 (witness): the amended invariant instantiated on a concrete
create-then-book history and its single stored visit. -/
theorem c2_booking_invariant_witness : visitBookInv c2wVisit :=
  c2_booking_invariant_amended c2wOps (by decide) c2wVisit (by decide)

/-- C3 (counterexample): a visit booked with the empty-string helper name has
bookedBy present (set), yet a second book request does not fail with
Conflict: it succeeds and overwrites the booking with the new name. -/
theorem c3_book_conflict_counterexample :
    (runVisitOps c3ex).visits.find? (fun u => u.id == 0) =
      some { mkVisit 0 vb0 "t0" with bookedBy := some "", bookedAt := some "t1" } ∧
    (apiBookVisit (runVisitOps c3ex) 0 (some "Lee") "t2").1 ≠ .error .conflict ∧
    ((apiBookVisit (runVisitOps c3ex) 0 (some "Lee") "t2").2.visits.map Visit.bookedBy) =
      [some "Lee"] := by
  decide

/-- C3 (amended): booking a stored visit whose bookedBy is a non-empty name
(truthy) fails with Conflict (409) and leaves the entire state, hence the
original bookedBy and bookedAt, exactly as they were; booking a visit whose
bookedBy is absent or the empty string succeeds, setting bookedBy to the
given helper name and bookedAt to the current time, leaving the collection
length unchanged. -/
theorem c3_book_conflict_amended (s : AppState) (id : Nat) (name : Option String)
    (now : String) (v : Visit) (hv : s.visits.find? (fun u => u.id == id) = some v) :
    (truthy v.bookedBy = true → apiBookVisit s id name now = (.error .conflict, s)) ∧
    (truthy v.bookedBy = false →
      (apiBookVisit s id name now).1 =
        .ok { v with bookedBy := name, bookedAt := some now } ∧
      (apiBookVisit s id name now).2.visits.find? (fun u => u.id == id) =
        some { v with bookedBy := name, bookedAt := some now } ∧
      (apiBookVisit s id name now).2.visits.length = s.visits.length) := by
  constructor
  · intro hb
    simp [apiBookVisit, hv, hb]
  · intro hb
    refine ⟨by simp [apiBookVisit, hv, hb, bookSet], ?_, ?_⟩
    · simp only [apiBookVisit, hv, hb, Bool.false_eq_true, if_false]
      exact @find?_updateFirst Visit (fun u => u.id == id) (bookSet name now) v
        (fun x hx => hx) s.visits hv
    · simp only [apiBookVisit, hv, hb, Bool.false_eq_true, if_false]
      exact length_updateFirst _ _ _

/-- C3 (witness): re-booking the concrete visit already booked by Kim fails
with Conflict and leaves the state untouched. -/
theorem c3_book_conflict_witness :
    apiBookVisit bookedState 0 (some "Lee") "t2" = (.error .conflict, bookedState) :=
  (c3_book_conflict_amended bookedState 0 (some "Lee") "t2" bookedVisit (by decide)).1
    (by decide)

/-- C4: on any stored task collection, claiming an absent id fails with
NotFound (404) and leaves the state untouched; claiming a present id, whatever
the task's current status, sets status to reserved, claimedBy to the supplied
helper name and claimedAt to the current time, returns the updated task, and
stores it under the same id. -/
theorem c4_claim_behavior (s : AppState) (id : Nat) (name : Option String) (now : String) :
    (s.tasks.find? (fun u => u.id == id) = none →
      apiClaimTask s id name now = (.error .notFound, s)) ∧
    (∀ t, s.tasks.find? (fun u => u.id == id) = some t →
      (apiClaimTask s id name now).1 =
        .ok { t with status := "reserved", claimedBy := name, claimedAt := some now } ∧
      (apiClaimTask s id name now).2.tasks.find? (fun u => u.id == id) =
        some { t with status := "reserved", claimedBy := name, claimedAt := some now }) := by
  constructor
  · intro h
    simp [apiClaimTask, h]
  · intro t ht
    constructor
    · simp [apiClaimTask, ht, claimSet]
    · simp only [apiClaimTask, ht]
      exact @find?_updateFirst Task (fun u => u.id == id) (claimSet name now) t
        (fun x hx => hx) s.tasks ht

/-- C4 (witness): claiming the single concrete stored task returns it
reserved with the supplied name and timestamp. -/
theorem c4_claim_witness :
    (apiClaimTask oneTaskState 0 (some "Sam") "t1").1 =
      .ok { task0 with status := "reserved", claimedBy := some "Sam", claimedAt := some "t1" } :=
  ((c4_claim_behavior oneTaskState 0 (some "Sam") "t1").2 task0 (by decide)).1

/-- C5: for any stored task, claiming it (with any helper name) and then
unclaiming the same id yields a task whose status is waiting and whose
claimedBy and claimedAt are both cleared, whatever the status before the
claim; the result is both returned and stored. -/
theorem c5_claim_unclaim_roundtrip (s : AppState) (id : Nat) (name : Option String)
    (now : String) (t : Task) (ht : s.tasks.find? (fun u => u.id == id) = some t) :
    (apiUnclaimTask (apiClaimTask s id name now).2 id).1 =
      .ok { t with status := "waiting", claimedBy := none, claimedAt := none } ∧
    (apiUnclaimTask (apiClaimTask s id name now).2 id).2.tasks.find?
        (fun u => u.id == id) =
      some { t with status := "waiting", claimedBy := none, claimedAt := none } := by
  have h1 : (apiClaimTask s id name now).2.tasks.find? (fun u => u.id == id) =
      some (claimSet name now t) := by
    simp only [apiClaimTask, ht]
    exact @find?_updateFirst Task (fun u => u.id == id) (claimSet name now) t
      (fun x hx => hx) s.tasks ht
  constructor
  · simp [apiUnclaimTask, h1, unclaimSet, claimSet]
  · simp only [apiUnclaimTask, h1]
    exact @find?_updateFirst Task (fun u => u.id == id) unclaimSet (claimSet name now t)
      (fun x hx => hx) (apiClaimTask s id name now).2.tasks h1

/-- C5 (witness): the round trip on the single concrete stored task. -/
theorem c5_claim_unclaim_witness :
    (apiUnclaimTask (apiClaimTask oneTaskState 0 (some "Sam") "t1").2 0).1 =
      .ok { task0 with status := "waiting", claimedBy := none, claimedAt := none } :=
  (c5_claim_unclaim_roundtrip oneTaskState 0 (some "Sam") "t1" task0 (by decide)).1

/-- C6: for any helper collection and any name non-blank after trimming, two
successive registrations of that name return the same record (in particular
the same identifier), the second registration leaves the helper collection
(indeed the whole state) unchanged, and its existing-record branch neither
persists nor broadcasts. -/
theorem c6_register_idempotent (s : AppState) (name : String) (now1 now2 : String)
    (hname : jsTrim name ≠ "") :
    ∃ h1, (apiRegisterHelper s (some name) now1).result = .ok h1 ∧
      (apiRegisterHelper (apiRegisterHelper s (some name) now1).state
        (some name) now2).result = .ok h1 ∧
      (apiRegisterHelper (apiRegisterHelper s (some name) now1).state
        (some name) now2).state = (apiRegisterHelper s (some name) now1).state ∧
      (apiRegisterHelper (apiRegisterHelper s (some name) now1).state
        (some name) now2).persisted = false ∧
      (apiRegisterHelper (apiRegisterHelper s (some name) now1).state
        (some name) now2).broadcast = false := by
  cases hfind : s.helpers.find? (fun h => h.name == jsTrim name) with
  | some e =>
    refine ⟨e, ?_, ?_, ?_, ?_, ?_⟩ <;> simp [apiRegisterHelper, hname, hfind]
  | none =>
    have hr1 : apiRegisterHelper s (some name) now1 =
        ⟨.ok ⟨s.nextId, jsTrim name, now1⟩,
         { s with helpers := s.helpers ++ [⟨s.nextId, jsTrim name, now1⟩],
                  nextId := s.nextId + 1 },
         true, true⟩ := by
      simp [apiRegisterHelper, hname, hfind]
    have hf2 : (s.helpers ++ [(⟨s.nextId, jsTrim name, now1⟩ : Helper)]).find?
        (fun h => h.name == jsTrim name) = some ⟨s.nextId, jsTrim name, now1⟩ := by
      rw [find?_append_of_none hfind]
      simp
    refine ⟨⟨s.nextId, jsTrim name, now1⟩, ?_, ?_, ?_, ?_, ?_⟩ <;>
      rw [hr1] <;> simp [apiRegisterHelper, hname, hf2]

/-- C6 (witness): registering Sam twice on the empty roster: the second call
neither persists nor broadcasts. -/
theorem c6_register_witness :
    (apiRegisterHelper (apiRegisterHelper initialState (some "Sam") "j0").state
      (some "Sam") "j1").persisted = false ∧
    (apiRegisterHelper (apiRegisterHelper initialState (some "Sam") "j0").state
      (some "Sam") "j1").broadcast = false := by
  obtain ⟨h1, _, _, _, hp, hb⟩ :=
    c6_register_idempotent initialState "Sam" "j0" "j1" (by decide)
  exact ⟨hp, hb⟩

/-- C7: for any stored PIN, set-pin with a mismatched oldPin fails with
Forbidden (403) and leaves the state untouched, so verify-pin with the
previous PIN still succeeds; set-pin with the matching oldPin replaces the
PIN with newPin and returns ok. -/
theorem c7_set_pin_behavior (s : AppState) (oldPin newPin : String) :
    (oldPin ≠ s.config.pin →
      apiSetPin s oldPin newPin = (.error .forbidden, s) ∧
      apiVerifyPin (apiSetPin s oldPin newPin).2 s.config.pin = true) ∧
    (oldPin = s.config.pin →
      apiSetPin s oldPin newPin = (.ok (), { s with config := { pin := newPin } })) := by
  constructor
  · intro h
    have hb : (oldPin != s.config.pin) = true := by simpa using h
    exact ⟨by simp [apiSetPin, hb], by simp [apiSetPin, apiVerifyPin, hb]⟩
  · intro h
    simp [apiSetPin, h]

/-- C7 (witness): against the default PIN 0000, a wrong oldPin is rejected
with the state unchanged, and the right oldPin replaces the PIN. -/
theorem c7_set_pin_witness :
    apiSetPin initialState "9999" "1234" = (.error .forbidden, initialState) ∧
    apiSetPin initialState "0000" "1234" =
      (.ok (), { initialState with config := { pin := "1234" } }) :=
  ⟨((c7_set_pin_behavior initialState "9999" "1234").1 (by decide)).1,
   (c7_set_pin_behavior initialState "0000" "1234").2 (by decide)⟩

/-- C8 (counterexample): identifier uniqueness fails as claimed, because the
raw update operation copies an id field supplied in the request body onto the
record: creating two tasks and updating the second task's id to 0 leaves two
stored tasks with id 0. -/
theorem c8_unique_ids_counterexample :
    ¬ (runTaskOps c8ex).tasks.Pairwise (fun a b => a.id ≠ b.id) := by
  decide

/-- C8 (amended): after any sequence of create, claim, unclaim, complete,
delete and update operations from the empty collection in which no update
body supplies an id field, no two stored tasks share an id. -/
theorem c8_unique_ids_amended (ops : List TaskOp)
    (hops : ∀ op ∈ ops, taskOpKeepsId op = true) :
    (runTaskOps ops).tasks.Pairwise (fun a b => a.id ≠ b.id) :=
  List.pairwise_map.mp
    (foldl_idInv ops initialState hops
      ⟨by simp [initialState], by simp [initialState]⟩).2

/-- C8 (witness): the two tasks created by a concrete two-create history have
distinct ids. -/
theorem c8_unique_ids_witness :
    (runTaskOps c8wOps).tasks.Pairwise (fun a b => a.id ≠ b.id) :=
  c8_unique_ids_amended c8wOps (by decide)

/-- C9: creation never fails, for every request body (absent or empty title,
absent visit fields included): create-task succeeds with a record carrying a
fresh identifier, the body's title as given, status waiting, createdAt set and
null claim fields, prepended to the collection; create-visit succeeds with the
body's scheduling fields as given, null booking fields and createdAt set,
appended to the collection.  Freshness is relative to the id-bound invariant
maintained by every operation. -/
theorem c9_create_never_fails (s : AppState) (tb : TaskBody) (vb : VisitBody)
    (nowT nowV : String) (hids : ∀ t ∈ s.tasks, t.id < s.nextId)
    (hvids : ∀ v ∈ s.visits, v.id < s.nextId) :
    ((apiCreateTask s tb nowT).1 = .ok (mkTask s.nextId tb nowT) ∧
     (mkTask s.nextId tb nowT).title = tb.title ∧
     (mkTask s.nextId tb nowT).status = "waiting" ∧
     (mkTask s.nextId tb nowT).createdAt = nowT ∧
     (mkTask s.nextId tb nowT).claimedBy = none ∧
     (mkTask s.nextId tb nowT).claimedAt = none ∧
     (mkTask s.nextId tb nowT).completedAt = none ∧
     (apiCreateTask s tb nowT).2.tasks = mkTask s.nextId tb nowT :: s.tasks ∧
     (∀ t ∈ s.tasks, t.id ≠ (mkTask s.nextId tb nowT).id)) ∧
    ((apiCreateVisit s vb nowV).1 = .ok (mkVisit s.nextId vb nowV) ∧
     (mkVisit s.nextId vb nowV).date = vb.date ∧
     (mkVisit s.nextId vb nowV).startTime = vb.startTime ∧
     (mkVisit s.nextId vb nowV).endTime = vb.endTime ∧
     (mkVisit s.nextId vb nowV).bookedBy = none ∧
     (mkVisit s.nextId vb nowV).bookedAt = none ∧
     (mkVisit s.nextId vb nowV).createdAt = nowV ∧
     (apiCreateVisit s vb nowV).2.visits = s.visits ++ [mkVisit s.nextId vb nowV] ∧
     (∀ v ∈ s.visits, v.id ≠ (mkVisit s.nextId vb nowV).id)) := by
  refine ⟨⟨rfl, rfl, rfl, rfl, rfl, rfl, rfl, rfl, ?_⟩,
    ⟨rfl, rfl, rfl, rfl, rfl, rfl, rfl, rfl, ?_⟩⟩
  · intro t ht
    exact Nat.ne_of_lt (hids t ht)
  · intro v hv
    exact Nat.ne_of_lt (hvids v hv)

/-- C9 (witness): creating a task with a fully empty body on the empty state
succeeds and returns the constructed record. -/
theorem c9_create_witness :
    (apiCreateTask initialState tb0 "t0").1 = .ok (mkTask 0 tb0 "t0") :=
  ((c9_create_never_fails initialState tb0 vb0 "t0" "t1"
    (by simp [initialState]) (by simp [initialState])).1).1

/-- C10: frame property of the by-id task operations. Claim, unclaim and
complete leave the visit collection, the helper collection and the config
(stored PIN) unchanged, and leave every stored task whose id differs from the
target id unchanged in place; complete sets only status and completedAt on
the found task (all other fields, claimedBy included, keep their values); and
update leaves every field whose patch entry is absent unchanged on the found
task. -/
theorem c10_by_id_frame (s : AppState) (id : Nat) (name : Option String)
    (now : String) (p : TaskPatch) :
    ((apiClaimTask s id name now).2.visits = s.visits ∧
     (apiClaimTask s id name now).2.helpers = s.helpers ∧
     (apiClaimTask s id name now).2.config = s.config ∧
     List.Forall₂ (fun a b => a.id ≠ id → b = a) s.tasks
       (apiClaimTask s id name now).2.tasks) ∧
    ((apiUnclaimTask s id).2.visits = s.visits ∧
     (apiUnclaimTask s id).2.helpers = s.helpers ∧
     (apiUnclaimTask s id).2.config = s.config ∧
     List.Forall₂ (fun a b => a.id ≠ id → b = a) s.tasks
       (apiUnclaimTask s id).2.tasks) ∧
    ((apiCompleteTask s id now).2.visits = s.visits ∧
     (apiCompleteTask s id now).2.helpers = s.helpers ∧
     (apiCompleteTask s id now).2.config = s.config ∧
     List.Forall₂ (fun a b => a.id ≠ id → b = a) s.tasks
       (apiCompleteTask s id now).2.tasks) ∧
    (∀ t, s.tasks.find? (fun u => u.id == id) = some t →
      (apiCompleteTask s id now).1 =
        .ok { t with status := "done", completedAt := some now }) ∧
    (∀ t, s.tasks.find? (fun u => u.id == id) = some t →
      (apiUpdateTask s id p).1 = .ok (applyPatch t p) ∧
      (p.claimedBy = none → (applyPatch t p).claimedBy = t.claimedBy) ∧
      (p.claimedAt = none → (applyPatch t p).claimedAt = t.claimedAt) ∧
      (p.completedAt = none → (applyPatch t p).completedAt = t.completedAt) ∧
      (p.status = none → (applyPatch t p).status = t.status) ∧
      (p.title = none → (applyPatch t p).title = t.title) ∧
      (p.id = none → (applyPatch t p).id = t.id) ∧
      (p.description = none → (applyPatch t p).description = t.description) ∧
      (p.category = none → (applyPatch t p).category = t.category) ∧
      (p.desiredDate = none → (applyPatch t p).desiredDate = t.desiredDate) ∧
      (p.desiredTime = none → (applyPatch t p).desiredTime = t.desiredTime) ∧
      (p.twin = none → (applyPatch t p).twin = t.twin) ∧
      (p.createdAt = none → (applyPatch t p).createdAt = t.createdAt)) := by
  have hrefl : List.Forall₂ (fun a b => a.id ≠ id → b = a) s.tasks s.tasks :=
    List.forall₂_same.mpr (fun a _ _ => rfl)
  have hframe : ∀ f : Task → Task,
      List.Forall₂ (fun a b => a.id ≠ id → b = a) s.tasks
        (updateFirst (fun u => u.id == id) f s.tasks) := by
    intro f
    refine (forall₂_updateFirst (fun u => u.id == id) f s.tasks).imp ?_
    intro a b h hne
    exact h (by simp [hne])
  refine ⟨?_, ?_, ?_, ?_, ?_⟩
  · cases hfind : s.tasks.find? (fun u => u.id == id) with
    | none => exact ⟨by simp [apiClaimTask, hfind], by simp [apiClaimTask, hfind],
        by simp [apiClaimTask, hfind], by simp only [apiClaimTask, hfind]; exact hrefl⟩
    | some t0 => exact ⟨by simp [apiClaimTask, hfind], by simp [apiClaimTask, hfind],
        by simp [apiClaimTask, hfind], by simp only [apiClaimTask, hfind]; exact hframe _⟩
  · cases hfind : s.tasks.find? (fun u => u.id == id) with
    | none => exact ⟨by simp [apiUnclaimTask, hfind], by simp [apiUnclaimTask, hfind],
        by simp [apiUnclaimTask, hfind], by simp only [apiUnclaimTask, hfind]; exact hrefl⟩
    | some t0 => exact ⟨by simp [apiUnclaimTask, hfind], by simp [apiUnclaimTask, hfind],
        by simp [apiUnclaimTask, hfind], by simp only [apiUnclaimTask, hfind]; exact hframe _⟩
  · cases hfind : s.tasks.find? (fun u => u.id == id) with
    | none => exact ⟨by simp [apiCompleteTask, hfind], by simp [apiCompleteTask, hfind],
        by simp [apiCompleteTask, hfind], by simp only [apiCompleteTask, hfind]; exact hrefl⟩
    | some t0 => exact ⟨by simp [apiCompleteTask, hfind], by simp [apiCompleteTask, hfind],
        by simp [apiCompleteTask, hfind], by simp only [apiCompleteTask, hfind]; exact hframe _⟩
  · intro t ht
    simp [apiCompleteTask, ht, completeSet]
  · intro t ht
    refine ⟨by simp [apiUpdateTask, ht], ?_, ?_, ?_, ?_, ?_, ?_, ?_, ?_, ?_, ?_, ?_, ?_⟩ <;>
      intro h <;> simp [applyPatch, h]

/-- C10 (witness): completing the single concrete stored task keeps every
field but status and completedAt. -/
theorem c10_by_id_frame_witness :
    (apiCompleteTask oneTaskState 0 "t1").1 =
      .ok { task0 with status := "done", completedAt := some "t1" } :=
  ((c10_by_id_frame oneTaskState 0 (some "Sam") "t1" {}).2.2.2.1) task0 (by decide)

end HelpRota
